import Mathlib

/-!
Shallow embedding of the volume reconstruction and windowed-rendering
pipeline of the DICOM viewer (src/app.py).

Numeric values are modelled by the rationals: pixel intensities, rescale
coefficients and window parameters are finite floating-point numbers in the
program, and all arithmetic performed on the proved paths is exact at the
modelled inputs.  Floating-point NaN (which a 0/0 division in numpy would
produce) has no counterpart in this model; the places where the program can
reach such a division are noted on the relevant definitions.

A 2-D pixel array is a list of rows.  A decoded DICOM dataset is modelled by
SliceRecord, keeping only the attributes the core pipeline reads.  Attribute
access on a pydicom dataset can find the attribute missing, or find it but
fail to convert it to a number; an attribute is therefore modelled as
Option (Option _): the outer layer is hasattr, the inner layer is whether
the numeric conversion (float(...) / int(...)) succeeds.
-/

/-- A 2-D pixel grid: a list of rows of rational intensities.  numpy arrays
produced by pydicom are rectangular; the shape of a rectangular grid is
determined by the list of its row lengths. -/
abbrev Grid := List (List ℚ)

/-- The per-row lengths of a grid; for the rectangular grids the program
builds, two grids have equal numpy shape iff their row-length lists agree. -/
def gridShape (g : Grid) : List ℕ := g.map List.length

/-- One decoded DICOM dataset, restricted to the attributes the core
pipeline reads (src/app.py lines 48-96).
For position_z : the outer Option is hasattr(ds, ImagePositionPatient), the
inner Option is whether float(ds.ImagePositionPatient[2]) evaluates to a
finite number.  For instance_number : the outer Option is
hasattr(ds, InstanceNumber), the inner Option is whether
int(ds.InstanceNumber) succeeds.  rescale_slope / rescale_intercept model
hasattr(ds, RescaleSlope) / hasattr(ds, RescaleIntercept) together with
their float values. -/
structure SliceRecord where
  pixels : Grid
  position_z : Option (Option ℚ)
  instance_number : Option (Option ℤ)
  rescale_slope : Option ℚ
  rescale_intercept : Option ℚ

/-- The sort key float(x.ImagePositionPatient[2]) of app.py line 62: none
when the attribute is missing or the conversion fails (either raises an
exception inside the key function). -/
def posKey (s : SliceRecord) : Option ℚ :=
  match s.position_z with
  | some (some q) => some q
  | _ => none

/-- The fallback sort key of app.py line 64,
int(x.InstanceNumber) if hasattr(x, InstanceNumber) else 0 :
a missing attribute yields the constant 0, an attribute whose int(...)
conversion fails raises (modelled as none). -/
def instKeyFallback (s : SliceRecord) : Option ℤ :=
  match s.instance_number with
  | none => some 0
  | some none => none
  | some (some n) => some n

/-- The sort key int(x.InstanceNumber) of app.py line 66: raises (none)
when the attribute is missing or the conversion fails. -/
def instKeyStrict (s : SliceRecord) : Option ℤ :=
  match s.instance_number with
  | some (some n) => some n
  | _ => none

/-- Python list.sort(key=k): an ascending stable sort by the key.  A stable
ascending sort is uniquely determined by the key order, so CPython's
Timsort and insertion sort compute the same list; insertion sort is used
here.  CPython computes all keys before moving any element, so a key
function that raises leaves the list unchanged (the callers below model
this by testing key computability before sorting). -/
def pySortByKey {α β : Type} [LinearOrder β] (key : α → β) (l : List α) : List α :=
  List.insertionSort (fun a b => key a ≤ key b) l

/-- The sorting logic of load_dicom_slices (app.py lines 59-68), applied to
the list of datasets that were successfully read (file reading itself is
I/O and out of scope).  Faithful branch structure:
- line 60 tests only hasattr on the FIRST slice;
- line 62 sorts by position; a key failure on any record aborts the sort
  with the list unchanged and line 64 sorts by the fallback instance key
  (missing attribute mapped to 0); a failure of int(...) there propagates
  as an uncaught exception (Except.error);
- line 65-66: when the first slice lacks the position attribute but has
  InstanceNumber, sort by the strict instance key; a missing or
  unconvertible InstanceNumber on any record propagates as an uncaught
  exception;
- otherwise the list is returned in discovery order, unsorted.
A non-finite (NaN) position value is outside this rational model: float()
accepts it and the comparison-based sort silently misorders instead of
raising. -/
def load_dicom_slices (slices : List SliceRecord) : Except String (List SliceRecord) :=
  match slices with
  | [] => Except.ok []
  | first :: rest =>
    if (first.position_z).isSome then
      if (first :: rest).all (fun s => (posKey s).isSome) then
        Except.ok (pySortByKey (fun s => (posKey s).getD 0) (first :: rest))
      else
        if (first :: rest).all (fun s => (instKeyFallback s).isSome) then
          Except.ok (pySortByKey (fun s => (instKeyFallback s).getD 0) (first :: rest))
        else
          Except.error "TypeError: invalid literal for InstanceNumber"
    else
      if (first.instance_number).isSome then
        if (first :: rest).all (fun s => (instKeyStrict s).isSome) then
          Except.ok (pySortByKey (fun s => (instKeyStrict s).getD 0) (first :: rest))
        else
          Except.error "AttributeError: InstanceNumber"
      else
        Except.ok (first :: rest)

/-- apply_modality_lut (app.py lines 70-76): the linear rescale
pixel_array * slope + intercept is applied only when BOTH RescaleSlope and
RescaleIntercept are present; otherwise the array is returned unchanged. -/
def apply_modality_lut (pixel_array : Grid) (slope intercept : Option ℚ) : Grid :=
  match slope, intercept with
  | some s, some i => pixel_array.map (fun row => row.map (fun x => x * s + i))
  | _, _ => pixel_array

/-- The per-slice calibration call apply_modality_lut(s.pixel_array, s) of
app.py lines 189 and 450. -/
def calibrateSlice (s : SliceRecord) : Grid :=
  apply_modality_lut s.pixels s.rescale_slope s.rescale_intercept

/-- Modelled from the spec (claim C3 wording): calibration with
per-coefficient defaults, "absent slope/intercept default to 1 and 0
respectively".  Used only to compare the spec's reading against
apply_modality_lut. -/
def calibrate_claimC3 (pixel_array : Grid) (slope intercept : Option ℚ) : Grid :=
  pixel_array.map (fun row => row.map (fun x => x * slope.getD 1 + intercept.getD 0))

/-- numpy np.clip(x, lo, hi): computes min(max(x, lo), hi); no check that
lo is below hi is performed, so when lo is above hi every output equals
hi. -/
def np_clip (x lo hi : ℚ) : ℚ := min (max x lo) hi

/-- numpy float-to-integer conversion truncates toward zero; astype(np.uint8)
is this truncation, faithful for values in [0, 255] (outside that range the
numpy conversion is platform-dependent; every path proved below stays
within [0, 255]). -/
def astype_uint8 (x : ℚ) : ℤ := if 0 ≤ x then ⌊x⌋ else ⌈x⌉

/-- The minimum of all entries of a grid, pixel_array.min(); 0 for an empty
grid (where numpy would raise). -/
def gridMin (g : Grid) : ℚ :=
  match g.flatten with
  | [] => 0
  | x :: xs => xs.foldl min x

/-- The maximum of all entries of a grid, pixel_array.max(); 0 for an empty
grid (where numpy would raise). -/
def gridMax (g : Grid) : ℚ :=
  match g.flatten with
  | [] => 0
  | x :: xs => xs.foldl max x

/-- The value a single pixel takes in the explicit-window branch of
normalize_image (app.py lines 82-89 followed by the line 96 cast). -/
def windowMap (c w x : ℚ) : ℤ :=
  astype_uint8 ((np_clip x (c - w / 2) (c + w / 2) - (c - w / 2)) /
    ((c + w / 2) - (c - w / 2)) * 255)

/-- normalize_image (app.py lines 78-96).  The explicit window is applied
only when window_center AND window_width are both not None (line 82);
otherwise the grid is shifted by its minimum and, when the shifted maximum
is positive, scaled by it (lines 90-94); line 96 casts to uint8.
The division at width = 0 is 0/0, which is NaN in numpy and outside this
rational model (rational division by zero yields 0); all theorems about
the explicit branch below assume a nonzero width. -/
def normalize_image (pixel_array : Grid)
    (window_center window_width : Option ℚ) : List (List ℤ) :=
  match window_center, window_width with
  | some c, some w =>
      pixel_array.map (fun row => row.map (fun x => windowMap c w x))
  | _, _ =>
      let m := gridMin pixel_array
      let shifted := pixel_array.map (fun row => row.map (fun x => x - m))
      let M := gridMax shifted
      if 0 < M then
        shifted.map (fun row => row.map (fun x => astype_uint8 (x / M * 255)))
      else
        shifted.map (fun row => row.map (fun x => astype_uint8 x))

/-- numpy np.stack on a list of equal-shaped arrays (the volume build of
app.py lines 189 and 450 stacks along a new leading axis, so the volume is
the list of calibrated grids in input order).  np.stack raises
ValueError "need at least one array to stack" on an empty input and
ValueError "all input arrays must have the same shape" when shapes differ;
neither message names an offending index. -/
def np_stack (arrays : List Grid) : Except String (List Grid) :=
  match arrays with
  | [] => Except.error "need at least one array to stack"
  | a :: rest =>
      if rest.all (fun b => gridShape b = gridShape a) then
        Except.ok (a :: rest)
      else
        Except.error "all input arrays must have the same shape"

/-- The volume build np.stack([apply_modality_lut(s.pixel_array, s) for s
in slices]) of app.py lines 189 and 450. -/
def build_volume (slices : List SliceRecord) : Except String (List Grid) :=
  np_stack (slices.map calibrateSlice)

/-- The axial extraction of get_slice (app.py lines 225-233): the index is
rejected when negative or at least the number of stored slices, and the
slice at the index is returned otherwise. -/
def get_slice (volume : List Grid) (slice_idx : ℤ) : Except String Grid :=
  if slice_idx < 0 ∨ (volume.length : ℤ) ≤ slice_idx then
    Except.error "Slice index out of range"
  else
    Except.ok (volume.getD slice_idx.toNat [])

/-- The ordering key the C5 claim describes: instance_number with a missing
value treated as 0 (spec wording; coincides with the code's fallback key
exactly when every present InstanceNumber converts). -/
def instKeySpec (s : SliceRecord) : ℤ :=
  match s.instance_number with
  | some (some n) => n
  | _ => 0

/-- Scenario slice for C4: position_z 2.5, instance_number 3. -/
def s4a : SliceRecord := ⟨[[0]], some (some (5 / 2)), some (some 3), none, none⟩

/-- Scenario slice for C4: position_z 0.0, instance_number 1. -/
def s4b : SliceRecord := ⟨[[1]], some (some 0), some (some 1), none, none⟩

/-- Scenario slice for C4: position_z 1.25, instance_number 2. -/
def s4c : SliceRecord := ⟨[[2]], some (some (5 / 4)), some (some 2), none, none⟩

/-- C5 counterexample record: no ordering key at all (spec key 0). -/
def r5a : SliceRecord := ⟨[[3]], none, none, none, none⟩

/-- C5 counterexample record: no position, instance_number -5 (spec key -5,
below the spec key 0 of r5a). -/
def r5b : SliceRecord := ⟨[[4]], none, some (some (-5)), none, none⟩

/-- C5 witness record: position attribute present and usable, instance 7. -/
def r5c : SliceRecord := ⟨[[10]], some (some 1), some (some 7), none, none⟩

/-- C5 witness record: position attribute missing, instance 3. -/
def r5d : SliceRecord := ⟨[[11]], none, some (some 3), none, none⟩

/-- C2 counterexample record: no ordering key on the first record. -/
def r2a : SliceRecord := ⟨[[7]], none, none, none, none⟩

/-- C2 counterexample record: instance_number -3; ignored by the code
because the first record has neither key. -/
def r2b : SliceRecord := ⟨[[8]], none, some (some (-3)), none, none⟩

/-- A 4 by 4 grid of zeros (C6 scenario). -/
def g44 : Grid := List.replicate 4 (List.replicate 4 0)

/-- A 4 by 5 grid of zeros (C6 scenario). -/
def g45 : Grid := List.replicate 4 (List.replicate 5 0)

/-- C9 witness slice: rescale slope 2, intercept -1. -/
def s9a : SliceRecord := ⟨[[1, 2], [3, 4]], none, none, some 2, some (-1)⟩

/-- C9 witness slice: no rescale attributes. -/
def s9b : SliceRecord := ⟨[[5, 6], [7, 8]], none, none, none, none⟩

/-! ## Helper lemmas -/

theorem foldl_min_le_init (l : List ℚ) (a : ℚ) : l.foldl min a ≤ a := by
  induction l generalizing a with
  | nil => simp
  | cons b t ih =>
    calc (b :: t).foldl min a = t.foldl min (min a b) := rfl
    _ ≤ min a b := ih (min a b)
    _ ≤ a := min_le_left a b

theorem foldl_min_le_mem {y : ℚ} {l : List ℚ} (a : ℚ) (hy : y ∈ l) :
    l.foldl min a ≤ y := by
  induction l generalizing a with
  | nil => cases hy
  | cons b t ih =>
    rcases List.mem_cons.mp hy with rfl | hmem
    · calc (y :: t).foldl min a = t.foldl min (min a y) := rfl
      _ ≤ min a y := foldl_min_le_init t (min a y)
      _ ≤ y := min_le_right a y
    · exact ih (min a b) hmem

theorem le_foldl_max_init (l : List ℚ) (a : ℚ) : a ≤ l.foldl max a := by
  induction l generalizing a with
  | nil => simp
  | cons b t ih =>
    calc a ≤ max a b := le_max_left a b
    _ ≤ t.foldl max (max a b) := ih (max a b)
    _ = (b :: t).foldl max a := rfl

theorem le_foldl_max_mem {y : ℚ} {l : List ℚ} (a : ℚ) (hy : y ∈ l) :
    y ≤ l.foldl max a := by
  induction l generalizing a with
  | nil => cases hy
  | cons b t ih =>
    rcases List.mem_cons.mp hy with rfl | hmem
    · calc y ≤ max a y := le_max_right a y
      _ ≤ t.foldl max (max a y) := le_foldl_max_init t (max a y)
      _ = (y :: t).foldl max a := rfl
    · exact ih (max a b) hmem

theorem gridMin_le_mem {g : Grid} {y : ℚ} (hy : y ∈ g.flatten) : gridMin g ≤ y := by
  unfold gridMin
  cases h : g.flatten with
  | nil => rw [h] at hy; cases hy
  | cons x xs =>
    rw [h] at hy
    show xs.foldl min x ≤ y
    rcases List.mem_cons.mp hy with rfl | hmem
    · exact foldl_min_le_init xs y
    · exact foldl_min_le_mem x hmem

theorem le_gridMax_mem {g : Grid} {y : ℚ} (hy : y ∈ g.flatten) : y ≤ gridMax g := by
  unfold gridMax
  cases h : g.flatten with
  | nil => rw [h] at hy; cases hy
  | cons x xs =>
    rw [h] at hy
    show y ≤ xs.foldl max x
    rcases List.mem_cons.mp hy with rfl | hmem
    · exact le_foldl_max_init xs y
    · exact le_foldl_max_mem x hmem

theorem astype_uint8_range {x : ℚ} (h0 : 0 ≤ x) (h1 : x ≤ 255) :
    0 ≤ astype_uint8 x ∧ astype_uint8 x ≤ 255 := by
  unfold astype_uint8
  rw [if_pos h0]
  refine ⟨Int.floor_nonneg.mpr h0, ?_⟩
  have h : (⌊x⌋ : ℚ) ≤ 255 := le_trans (Int.floor_le x) h1
  exact_mod_cast h

theorem windowMap_range (c w x : ℚ) (hw : 0 < w) :
    0 ≤ windowMap c w x ∧ windowMap c w x ≤ 255 := by
  have hlohi : c - w / 2 ≤ c + w / 2 := by linarith
  have hclip_lo : c - w / 2 ≤ np_clip x (c - w / 2) (c + w / 2) :=
    le_min (le_max_right _ _) hlohi
  have hclip_hi : np_clip x (c - w / 2) (c + w / 2) ≤ c + w / 2 := min_le_right _ _
  have hq0 : 0 ≤ (np_clip x (c - w / 2) (c + w / 2) - (c - w / 2)) /
      ((c + w / 2) - (c - w / 2)) :=
    div_nonneg (by linarith) (by linarith)
  have hq1 : (np_clip x (c - w / 2) (c + w / 2) - (c - w / 2)) /
      ((c + w / 2) - (c - w / 2)) ≤ 1 := by
    rw [div_le_one (by linarith)]
    linarith
  unfold windowMap
  exact astype_uint8_range (by nlinarith) (by nlinarith)

theorem np_stack_ok_eq {l v : List Grid} (h : np_stack l = Except.ok v) : v = l := by
  cases l with
  | nil => simp [np_stack] at h
  | cons a rest =>
    simp only [np_stack] at h
    by_cases hc : rest.all (fun b => gridShape b = gridShape a)
    · rw [if_pos hc] at h
      injection h with h
      exact h.symm
    · rw [if_neg hc] at h
      cases h

theorem pySortByKey_perm {α β : Type} [LinearOrder β] (key : α → β) (l : List α) :
    (pySortByKey key l).Perm l :=
  List.perm_insertionSort _ l

theorem pySortByKey_sorted {α β : Type} [LinearOrder β] (key : α → β) (l : List α) :
    (pySortByKey key l).Sorted (fun a b => key a ≤ key b) :=
  @List.sorted_insertionSort α (fun a b => key a ≤ key b) _
    ⟨fun a b => le_total (key a) (key b)⟩ ⟨fun _ _ _ h1 h2 => le_trans h1 h2⟩ l

/-! ## Claim theorems -/

/-- C1: for every grid and explicit window with positive width,
normalize_image computes low = center - width/2 and high = center + width/2,
clips each value to [low, high] and rescales as
(clipped - low) / (high - low) * 255 truncated to an integer; a value at or
below low maps to 0, a value at or above high maps to 255, and the value
center itself maps to 127, within the rounding tolerance 1 of 128. -/
theorem C1_window_normalization (g : Grid) (c w x : ℚ) (hw : 0 < w) :
    normalize_image g (some c) (some w)
      = g.map (fun row => row.map (fun v =>
          astype_uint8 ((np_clip v (c - w / 2) (c + w / 2) - (c - w / 2)) /
            ((c + w / 2) - (c - w / 2)) * 255)))
    ∧ (x ≤ c - w / 2 → windowMap c w x = 0)
    ∧ (c + w / 2 ≤ x → windowMap c w x = 255)
    ∧ (windowMap c w c - 128).natAbs ≤ 1 := by
  have hlohi : c - w / 2 ≤ c + w / 2 := by linarith
  refine ⟨rfl, ?_, ?_, ?_⟩
  · intro hx
    unfold windowMap np_clip
    rw [max_eq_right hx, min_eq_left hlohi]
    simp [astype_uint8]
  · intro hx
    unfold windowMap np_clip
    rw [max_eq_left (by linarith), min_eq_right hx]
    have hd : (c + w / 2) - (c - w / 2) = w := by ring
    rw [hd, div_self (by linarith : w ≠ 0)]
    norm_num [astype_uint8]
  · unfold windowMap np_clip
    rw [max_eq_left (by linarith), min_eq_left (by linarith)]
    have he : (c - (c - w / 2)) / ((c + w / 2) - (c - w / 2)) * 255 = 255 / 2 := by
      field_simp
      ring
    rw [he]
    norm_num [astype_uint8]

/-- C1 witness: the window (center 100, width 200) on the grid
[[0, 100, 300]], checked at the value 300. -/
theorem C1_witness :
    (0:ℚ) < 200 ∧
    (normalize_image [[(0:ℚ), 100, 300]] (some 100) (some 200)
        = [[(0:ℚ), 100, 300]].map (fun row => row.map (fun v =>
            astype_uint8 ((np_clip v (100 - 200 / 2) (100 + 200 / 2) - (100 - 200 / 2)) /
              ((100 + 200 / 2) - (100 - 200 / 2)) * 255)))
      ∧ ((300:ℚ) ≤ 100 - 200 / 2 → windowMap 100 200 300 = 0)
      ∧ (100 + 200 / 2 ≤ (300:ℚ) → windowMap 100 200 300 = 255)
      ∧ (windowMap 100 200 100 - 128).natAbs ≤ 1) :=
  ⟨by norm_num, C1_window_normalization [[0, 100, 300]] 100 200 300 (by norm_num)⟩

/-- C10: the explicit window is applied only when both center and width are
supplied; when exactly one of them is present normalize_image silently
falls back to automatic min/max normalization. -/
theorem C10_partial_window (g : Grid) (c w : ℚ) :
    normalize_image g (some c) none = normalize_image g none none
    ∧ normalize_image g none (some w) = normalize_image g none none
    ∧ normalize_image g (some c) (some w)
        = g.map (fun row => row.map (fun x => windowMap c w x)) :=
  ⟨rfl, rfl, rfl⟩

/-- C7 counterexample: the claim says a non-positive width raises a
DegenerateWindowError rather than producing an output grid, but
normalize_image has no width check: at window (0, -2) on the grid [[5]] it
returns the grid [[255]]. -/
theorem C7_counterexample :
    normalize_image [[(5:ℚ)]] (some 0) (some (-2)) = [[(255:ℤ)]] := by
  norm_num [normalize_image, windowMap, np_clip, astype_uint8, min_def, max_def]

/-- C7 amended: normalize_image performs no validation of the window width;
for a negative width the clip collapses every value to the high bound and
every output pixel is 255. -/
theorem C7_no_width_validation (g : Grid) (c w : ℚ) (hw : w < 0) :
    normalize_image g (some c) (some w)
      = g.map (fun row => row.map (fun _ => (255:ℤ))) := by
  have h1 : normalize_image g (some c) (some w)
      = g.map (fun row => row.map (fun x => windowMap c w x)) := rfl
  rw [h1]
  have hkey : ∀ x : ℚ, windowMap c w x = 255 := by
    intro x
    unfold windowMap np_clip
    have hhl : c + w / 2 < c - w / 2 := by linarith
    rw [min_eq_right (le_trans (le_of_lt hhl) (le_max_right x (c - w / 2)))]
    have hd : (c + w / 2) - (c - w / 2) = w := by ring
    rw [hd, div_self (by linarith : w ≠ 0)]
    norm_num [astype_uint8]
  simp only [hkey]

/-- C7 amended witness: window (0, -2) on the grid [[5]]. -/
theorem C7_no_width_validation_witness :
    (-2:ℚ) < 0 ∧ normalize_image [[(5:ℚ)]] (some 0) (some (-2))
      = [[(5:ℚ)]].map (fun row => row.map (fun _ => (255:ℤ))) :=
  ⟨by norm_num, C7_no_width_validation [[5]] 0 (-2) (by norm_num)⟩

/-- C3 counterexample: the claim says an absent slope defaults to 1 with the
present intercept still applied; on raw value 500 with no slope and
intercept 5 the code returns 500 unchanged while the claim's per-coefficient
defaults give 505. -/
theorem C3_counterexample :
    apply_modality_lut [[(500:ℚ)]] none (some 5) = [[(500:ℚ)]]
    ∧ calibrate_claimC3 [[(500:ℚ)]] none (some 5) = [[(505:ℚ)]]
    ∧ apply_modality_lut [[(500:ℚ)]] none (some 5)
        ≠ calibrate_claimC3 [[(500:ℚ)]] none (some 5) := by
  have h1 : apply_modality_lut [[(500:ℚ)]] none (some 5) = [[(500:ℚ)]] := rfl
  have h2 : calibrate_claimC3 [[(500:ℚ)]] none (some 5) = [[(505:ℚ)]] := by
    norm_num [calibrate_claimC3]
  refine ⟨h1, h2, ?_⟩
  rw [h1, h2]
  intro hcontra
  norm_num at hcontra

/-- C3 amended: calibration applies raw * slope + intercept element-wise
only when both coefficients are present; when either is absent the grid is
returned unchanged (the identity case); the shape is always preserved; raw
value 500 under slope 1 and intercept -1024 yields -524. -/
theorem C3_both_required (g : Grid) (slope intercept : Option ℚ) :
    (∀ s i, slope = some s → intercept = some i →
      apply_modality_lut g slope intercept
        = g.map (fun row => row.map (fun x => x * s + i)))
    ∧ (slope = none ∨ intercept = none → apply_modality_lut g slope intercept = g)
    ∧ gridShape (apply_modality_lut g slope intercept) = gridShape g
    ∧ apply_modality_lut [[(500:ℚ)]] (some 1) (some (-1024)) = [[(-524:ℚ)]] := by
  refine ⟨?_, ?_, ?_, ?_⟩
  · rintro s i rfl rfl
    rfl
  · rintro (rfl | rfl)
    · cases intercept <;> rfl
    · cases slope <;> rfl
  · cases slope with
    | none => cases intercept <;> rfl
    | some s =>
      cases intercept with
      | none => rfl
      | some i =>
        simp [apply_modality_lut, gridShape, List.map_map, Function.comp]
  · norm_num [apply_modality_lut]

/-- C3 amended witness: slope 2 present, intercept absent, raw value 500 is
returned unchanged. -/
theorem C3_both_required_witness :
    apply_modality_lut [[(500:ℚ)]] (some 2) none = [[(500:ℚ)]] :=
  (C3_both_required [[(500:ℚ)]] (some 2) none).2.1 (Or.inr rfl)

theorem instKeyFallback_eq_spec {s : SliceRecord}
    (h : (instKeyFallback s).isSome = true) :
    (instKeyFallback s).getD 0 = instKeySpec s := by
  cases hn : s.instance_number with
  | none => simp [instKeyFallback, instKeySpec, hn]
  | some v =>
    cases v with
    | none => simp [instKeyFallback, hn] at h
    | some n => simp [instKeyFallback, instKeySpec, hn]

/-- C4: when every record has a usable position_z the slices are returned
sorted ascending by position_z (a permutation of the input, sorted by the
position key); on the scenario slices with position_z 2.5, 0.0, 1.25 the
resulting order is indices 1, 2, 0. -/
theorem C4_sort_by_position (slices : List SliceRecord)
    (hne : slices ≠ [])
    (hall : ∀ s ∈ slices, (posKey s).isSome = true) :
    (∃ out, load_dicom_slices slices = Except.ok out
      ∧ out.Perm slices
      ∧ out.Sorted (fun a b => (posKey a).getD 0 ≤ (posKey b).getD 0))
    ∧ load_dicom_slices [s4a, s4b, s4c] = Except.ok [s4b, s4c, s4a] := by
  constructor
  · cases slices with
    | nil => exact absurd rfl hne
    | cons first rest =>
      have hpk := hall first (List.mem_cons_self first rest)
      have hfirst : first.position_z.isSome = true := by
        cases h : first.position_z with
        | none => simp [posKey, h] at hpk
        | some v => rfl
      have hallb : (first :: rest).all (fun s => (posKey s).isSome) = true :=
        List.all_eq_true.mpr (fun s hs => hall s hs)
      refine ⟨pySortByKey (fun s => (posKey s).getD 0) (first :: rest), ?_,
        pySortByKey_perm _ _, pySortByKey_sorted _ _⟩
      simp only [load_dicom_slices]
      rw [if_pos hfirst, if_pos hallb]
  · norm_num [load_dicom_slices, pySortByKey, List.insertionSort,
      List.orderedInsert, posKey, s4a, s4b, s4c]

/-- C4 witness: the scenario slices themselves satisfy the hypotheses. -/
theorem C4_witness :
    (([s4a, s4b, s4c] : List SliceRecord) ≠ [])
    ∧ ((∃ out, load_dicom_slices [s4a, s4b, s4c] = Except.ok out
        ∧ out.Perm [s4a, s4b, s4c]
        ∧ out.Sorted (fun a b => (posKey a).getD 0 ≤ (posKey b).getD 0))
      ∧ load_dicom_slices [s4a, s4b, s4c] = Except.ok [s4b, s4c, s4a]) :=
  ⟨List.cons_ne_nil _ _,
    C4_sort_by_position [s4a, s4b, s4c] (List.cons_ne_nil _ _) (by decide)⟩

/-- C5 counterexample: both records lack a usable position_z, yet the code
returns them in discovery order, not sorted ascending by instance_number
with missing treated as 0 (the first record has spec key 0, the second has
instance_number -5, so the claimed order would put the second first). -/
theorem C5_counterexample :
    load_dicom_slices [r5a, r5b] = Except.ok [r5a, r5b]
    ∧ ¬ List.Sorted (fun a b => instKeySpec a ≤ instKeySpec b) [r5a, r5b]
    ∧ (∀ s ∈ [r5a, r5b], posKey s = none) :=
  ⟨rfl, by decide, by decide⟩

/-- C5 amended: only when the FIRST record has the position attribute and
the position sort fails on some record does the code sort ascending by
instance_number with a missing instance_number treated as 0; when the first
record lacks the position attribute the records are sorted by
instance_number only if the first record has one (a missing instance_number
elsewhere then raises instead of counting as 0), and with neither key on
the first record the records are returned in discovery order. -/
theorem C5_fallback_sort (first : SliceRecord) (rest : List SliceRecord)
    (hfirst : first.position_z.isSome = true)
    (hbad : ¬ ((first :: rest).all (fun s => (posKey s).isSome) = true))
    (hinst : (first :: rest).all (fun s => (instKeyFallback s).isSome) = true) :
    ∃ out, load_dicom_slices (first :: rest) = Except.ok out
      ∧ out.Perm (first :: rest)
      ∧ out.Sorted (fun a b => instKeySpec a ≤ instKeySpec b) := by
  refine ⟨pySortByKey (fun s => (instKeyFallback s).getD 0) (first :: rest), ?_,
    pySortByKey_perm _ _, ?_⟩
  · simp only [load_dicom_slices]
    rw [if_pos hfirst, if_neg hbad, if_pos hinst]
  · have hs := pySortByKey_sorted (fun s => (instKeyFallback s).getD 0) (first :: rest)
    have hperm := pySortByKey_perm (fun s => (instKeyFallback s).getD 0) (first :: rest)
    refine List.Pairwise.imp_of_mem ?_ hs
    intro a b ha hb hR
    have ea := instKeyFallback_eq_spec (List.all_eq_true.mp hinst a (hperm.subset ha))
    have eb := instKeyFallback_eq_spec (List.all_eq_true.mp hinst b (hperm.subset hb))
    rw [ea, eb] at hR
    exact hR

/-- C5 witness: first record has position 1 and instance 7, second record
lacks the position attribute and has instance 3; the fallback sort swaps
them. -/
theorem C5_fallback_sort_witness :
    r5c.position_z.isSome = true
    ∧ ¬ (([r5c, r5d]).all (fun s => (posKey s).isSome) = true)
    ∧ ([r5c, r5d]).all (fun s => (instKeyFallback s).isSome) = true
    ∧ (∃ out, load_dicom_slices [r5c, r5d] = Except.ok out
        ∧ out.Perm [r5c, r5d]
        ∧ out.Sorted (fun a b => instKeySpec a ≤ instKeySpec b)) :=
  ⟨rfl, by decide, by decide,
    C5_fallback_sort r5c [r5d] rfl (by decide) (by decide)⟩

/-- C2 counterexample: with ordering keys absent (neither position_z nor
instance_number on the first record), load_dicom_slices surfaces no error
at all: it silently returns the records in discovery order, an order that
is not sorted under the spec's fallback key. -/
theorem C2_counterexample :
    load_dicom_slices [r2a, r2b] = Except.ok [r2a, r2b]
    ∧ (¬ ∃ e, load_dicom_slices [r2a, r2b] = Except.error e)
    ∧ ¬ List.Sorted (fun a b => instKeySpec a ≤ instKeySpec b) [r2a, r2b] := by
  refine ⟨rfl, ?_, by decide⟩
  rintro ⟨e, he⟩
  have h1 : load_dicom_slices [r2a, r2b] = Except.ok [r2a, r2b] := rfl
  rw [h1] at he
  cases he

/-- C2 amended: no OrderingError kind exists in the code; when the first
record carries neither ordering key the records are returned silently in
discovery order (and a failing position sort silently falls back to the
instance sort rather than surfacing an ordering error). -/
theorem C2_no_ordering_error (first : SliceRecord) (rest : List SliceRecord)
    (h1 : first.position_z = none) (h2 : first.instance_number = none) :
    load_dicom_slices (first :: rest) = Except.ok (first :: rest) := by
  simp [load_dicom_slices, h1, h2]

/-- C2 amended witness: the keyless records of the counterexample. -/
theorem C2_no_ordering_error_witness :
    r2a.position_z = none ∧ r2a.instance_number = none
    ∧ load_dicom_slices [r2a, r2b] = Except.ok [r2a, r2b] :=
  ⟨rfl, rfl, C2_no_ordering_error r2a [r2b] rfl rfl⟩

theorem foldl_min_mem (l : List ℚ) (a : ℚ) : l.foldl min a = a ∨ l.foldl min a ∈ l := by
  induction l generalizing a with
  | nil => exact Or.inl rfl
  | cons b t ih =>
    rcases ih (min a b) with h | h
    · rcases min_choice a b with hm | hm
      · exact Or.inl (by show t.foldl min (min a b) = a; rw [h, hm])
      · refine Or.inr ?_
        show t.foldl min (min a b) ∈ b :: t
        rw [h, hm]
        exact List.mem_cons_self b t
    · exact Or.inr (List.mem_cons_of_mem b h)

theorem gridMin_mem {g : Grid} (h : g.flatten ≠ []) : gridMin g ∈ g.flatten := by
  unfold gridMin
  cases hf : g.flatten with
  | nil => exact absurd hf h
  | cons x xs =>
    show xs.foldl min x ∈ x :: xs
    rcases foldl_min_mem xs x with h1 | h1
    · rw [h1]; exact List.mem_cons_self x xs
    · exact List.mem_cons_of_mem x h1

theorem foldl_max_le {l : List ℚ} {a c : ℚ} (ha : a ≤ c) (hl : ∀ y ∈ l, y ≤ c) :
    l.foldl max a ≤ c := by
  induction l generalizing a with
  | nil => exact ha
  | cons b t ih =>
    exact ih (max_le ha (hl b (List.mem_cons_self b t)))
      (fun y hy => hl y (List.mem_cons_of_mem b hy))

theorem gridMax_le_zero {g : Grid} (h : ∀ y ∈ g.flatten, y ≤ 0) : gridMax g ≤ 0 := by
  unfold gridMax
  cases hf : g.flatten with
  | nil => exact le_refl 0
  | cons x xs =>
    show xs.foldl max x ≤ 0
    exact foldl_max_le (h x (by rw [hf]; exact List.mem_cons_self x xs))
      (fun y hy => h y (by rw [hf]; exact List.mem_cons_of_mem x hy))

theorem normalize_window_range (g : Grid) (c w : ℚ) (hw : 0 < w) :
    ∀ row ∈ normalize_image g (some c) (some w), ∀ v ∈ row, 0 ≤ v ∧ v ≤ 255 := by
  intro row hrow v hv
  have hdef : normalize_image g (some c) (some w)
      = g.map (fun r => r.map (fun x => windowMap c w x)) := rfl
  rw [hdef] at hrow
  rcases List.mem_map.mp hrow with ⟨row0, hrow0, rfl⟩
  rcases List.mem_map.mp hv with ⟨x, hx, rfl⟩
  exact windowMap_range c w x hw

theorem normalize_auto_range (g : Grid) :
    ∀ row ∈ normalize_image g none none, ∀ v ∈ row, 0 ≤ v ∧ v ≤ 255 := by
  intro row hrow v hv
  simp only [normalize_image] at hrow
  by_cases hM : 0 < gridMax (g.map (fun r => r.map (fun x => x - gridMin g)))
  · rw [if_pos hM] at hrow
    rcases List.mem_map.mp hrow with ⟨row1, hrow1, rfl⟩
    rcases List.mem_map.mp hrow1 with ⟨row0, hrow0, rfl⟩
    rcases List.mem_map.mp hv with ⟨y, hy, rfl⟩
    rcases List.mem_map.mp hy with ⟨x, hx, rfl⟩
    have hxm : gridMin g ≤ x := gridMin_le_mem (List.mem_flatten.mpr ⟨row0, hrow0, hx⟩)
    have hyM : x - gridMin g ≤ gridMax (g.map (fun r => r.map (fun x => x - gridMin g))) :=
      le_gridMax_mem (List.mem_flatten.mpr
        ⟨row0.map (fun x => x - gridMin g), List.mem_map_of_mem _ hrow0,
          List.mem_map_of_mem _ hx⟩)
    apply astype_uint8_range
    · exact mul_nonneg (div_nonneg (by linarith) (le_of_lt hM)) (by norm_num)
    · have h1 : (x - gridMin g) /
          gridMax (g.map (fun r => r.map (fun x => x - gridMin g))) ≤ 1 :=
        (div_le_one hM).mpr hyM
      linarith
  · rw [if_neg hM] at hrow
    rcases List.mem_map.mp hrow with ⟨row1, hrow1, rfl⟩
    rcases List.mem_map.mp hrow1 with ⟨row0, hrow0, rfl⟩
    rcases List.mem_map.mp hv with ⟨y, hy, rfl⟩
    rcases List.mem_map.mp hy with ⟨x, hx, rfl⟩
    have hxm : gridMin g ≤ x := gridMin_le_mem (List.mem_flatten.mpr ⟨row0, hrow0, hx⟩)
    have hyM : x - gridMin g ≤ gridMax (g.map (fun r => r.map (fun x => x - gridMin g))) :=
      le_gridMax_mem (List.mem_flatten.mpr
        ⟨row0.map (fun x => x - gridMin g), List.mem_map_of_mem _ hrow0,
          List.mem_map_of_mem _ hx⟩)
    have hzero : x - gridMin g = 0 :=
      le_antisymm (le_trans hyM (not_lt.mp hM)) (by linarith)
    rw [hzero]
    norm_num [astype_uint8]

theorem normalize_auto_const (g : Grid) (k : ℚ) (hk : ∀ row ∈ g, ∀ x ∈ row, x = k) :
    normalize_image g none none = g.map (fun row => row.map (fun _ => (0:ℤ))) := by
  have hflat : ∀ y ∈ g.flatten, y = k := by
    intro y hy
    rcases List.mem_flatten.mp hy with ⟨row, hrow, hyx⟩
    exact hk row hrow y hyx
  have hmk : ∀ y ∈ g.flatten, y - gridMin g = 0 := by
    intro y hy
    have h1 : y = k := hflat y hy
    have h2 : gridMin g = k := by
      have hne : g.flatten ≠ [] := by
        intro hcon
        rw [hcon] at hy
        cases hy
      exact hflat _ (gridMin_mem hne)
    rw [h1, h2, sub_self]
  have hshift : ∀ y ∈ (g.map (fun row => row.map (fun x => x - gridMin g))).flatten, y = 0 := by
    intro y hy
    rcases List.mem_flatten.mp hy with ⟨row, hrow, hyrow⟩
    rcases List.mem_map.mp hrow with ⟨row0, hrow0, rfl⟩
    rcases List.mem_map.mp hyrow with ⟨x, hx, rfl⟩
    exact hmk x (List.mem_flatten.mpr ⟨row0, hrow0, hx⟩)
  have hM : gridMax (g.map (fun row => row.map (fun x => x - gridMin g))) ≤ 0 :=
    gridMax_le_zero (fun y hy => le_of_eq (hshift y hy))
  simp only [normalize_image]
  rw [if_neg (not_lt.mpr hM)]
  rw [List.map_map]
  refine List.map_congr_left ?_
  intro row hrow
  show (row.map (fun x => x - gridMin g)).map astype_uint8 = row.map (fun _ => (0:ℤ))
  rw [List.map_map]
  refine List.map_congr_left ?_
  intro x hx
  show astype_uint8 (x - gridMin g) = 0
  rw [hmk x (List.mem_flatten.mpr ⟨row, hrow, hx⟩)]
  norm_num [astype_uint8]

/-- C6 counterexample: stacking a 4 by 4 grid with a 4 by 5 grid does fail,
but with numpy's generic ValueError whose message contains no digit at all,
so it cannot reference the offending slice index 1; it is not a
ShapeMismatchError identifying the index. -/
theorem C6_counterexample :
    np_stack [g44, g45] = Except.error "all input arrays must have the same shape"
    ∧ ("all input arrays must have the same shape").toList.all
        (fun ch => !ch.isDigit) = true
    ∧ gridShape g44 = [4, 4, 4, 4] ∧ gridShape g45 = [5, 5, 5, 5] :=
  ⟨rfl, by decide, by decide, by decide⟩

/-- C6 amended: volume assembly rejects grids of differing shapes — np.stack
fails with its generic shape error and no volume is produced — but the
error does not identify the offending index and is not an explicit
pre-stack check of the application. -/
theorem C6_stack_rejects_mismatch (arrays : List Grid) (a b : Grid)
    (ha : a ∈ arrays) (hb : b ∈ arrays) (hne : gridShape a ≠ gridShape b) :
    np_stack arrays = Except.error "all input arrays must have the same shape" := by
  cases arrays with
  | nil => cases ha
  | cons hd rest =>
    simp only [np_stack]
    split
    · rename_i hall
      exfalso
      have hmem : ∀ g ∈ (hd :: rest), gridShape g = gridShape hd := by
        intro g hg
        rcases List.mem_cons.mp hg with rfl | hg2
        · rfl
        · simpa using List.all_eq_true.mp hall g hg2
      exact hne ((hmem a ha).trans (hmem b hb).symm)
    · rfl

/-- C6 amended witness: the 4 by 4 and 4 by 5 grids. -/
theorem C6_stack_rejects_mismatch_witness :
    g44 ∈ [g44, g45] ∧ g45 ∈ [g44, g45] ∧ gridShape g44 ≠ gridShape g45
    ∧ np_stack [g44, g45] = Except.error "all input arrays must have the same shape" :=
  ⟨by simp, by simp, by decide,
    C6_stack_rejects_mismatch [g44, g45] g44 g45 (by simp) (by simp) (by decide)⟩

/-- C8: with an explicit positive-width window or in automatic mode, every
output value of normalize_image lies within [0, 255] (the value cast to
uint8 is already in range, so no wrap to 256 or below 0 occurs), and in
automatic mode a constant grid yields the all-zero grid with no
division-by-zero fault. -/
theorem C8_output_range (g : Grid) (wc ww : Option ℚ)
    (hw : ∀ c w, wc = some c → ww = some w → 0 < w) :
    (∀ row ∈ normalize_image g wc ww, ∀ v ∈ row, 0 ≤ v ∧ v ≤ 255)
    ∧ (∀ k : ℚ, (∀ row ∈ g, ∀ x ∈ row, x = k) →
        normalize_image g none none = g.map (fun row => row.map (fun _ => (0:ℤ)))) := by
  constructor
  · cases wc with
    | some c =>
      cases ww with
      | some w => exact normalize_window_range g c w (hw c w rfl rfl)
      | none =>
        have h : normalize_image g (some c) none = normalize_image g none none := rfl
        rw [h]
        exact normalize_auto_range g
    | none =>
      cases ww with
      | some w =>
        have h : normalize_image g none (some w) = normalize_image g none none := rfl
        rw [h]
        exact normalize_auto_range g
      | none => exact normalize_auto_range g
  · exact fun k hk => normalize_auto_const g k hk

/-- C8 witness: automatic mode on the constant grid [[5, 5], [5, 5]]. -/
theorem C8_witness :
    (∀ c w : ℚ, (none : Option ℚ) = some c → (none : Option ℚ) = some w → (0:ℚ) < w)
    ∧ ((∀ row ∈ normalize_image [[(5:ℚ), 5], [5, 5]] none none,
          ∀ v ∈ row, 0 ≤ v ∧ v ≤ 255)
      ∧ (∀ k : ℚ, (∀ row ∈ [[(5:ℚ), 5], [5, 5]], ∀ x ∈ row, x = k) →
          normalize_image [[(5:ℚ), 5], [5, 5]] none none
            = [[(5:ℚ), 5], [5, 5]].map (fun row => row.map (fun _ => (0:ℤ))))) :=
  ⟨fun _ _ h => (nomatch h),
    C8_output_range [[(5:ℚ), 5], [5, 5]] none none (fun _ _ h => nomatch h)⟩

/-- C9: a volume built by stacking the calibrated grids of ordered slices
preserves input order, and extracting axial plane i returns exactly the
calibrated grid of the i-th slice. -/
theorem C9_axial_roundtrip (slices : List SliceRecord) (volume : List Grid) (i : ℕ)
    (hstack : build_volume slices = Except.ok volume) (hi : i < slices.length) :
    get_slice volume (i : ℤ) = Except.ok (calibrateSlice slices[i]) := by
  have hvol : volume = slices.map calibrateSlice := np_stack_ok_eq hstack
  subst hvol
  have hlen : (slices.map calibrateSlice).length = slices.length := List.length_map _ _
  unfold get_slice
  have hcond : ¬ (((i:ℤ) < 0) ∨ (((slices.map calibrateSlice).length : ℤ) ≤ (i:ℤ))) := by
    push_neg
    refine ⟨Int.natCast_nonneg i, ?_⟩
    rw [hlen]
    exact_mod_cast hi
  rw [if_neg hcond]
  have htn : ((i:ℤ)).toNat = i := Int.toNat_natCast i
  rw [htn]
  rw [List.getD_eq_getElem?_getD,
    List.getElem?_eq_getElem (by rw [hlen]; exact hi)]
  rw [Option.getD_some, List.getElem_map]

/-- C9 witness: two concrete slices, one with rescale coefficients; axial
plane 1 of the built volume is the calibrated second slice. -/
theorem C9_witness :
    build_volume [s9a, s9b] = Except.ok (List.map calibrateSlice [s9a, s9b])
    ∧ 1 < ([s9a, s9b] : List SliceRecord).length
    ∧ get_slice (List.map calibrateSlice [s9a, s9b]) (1 : ℤ)
        = Except.ok (calibrateSlice ([s9a, s9b])[1])
    ∧ calibrateSlice s9a = [[(1:ℚ), 3], [5, 7]] := by
  have hbuild : build_volume [s9a, s9b]
      = Except.ok (List.map calibrateSlice [s9a, s9b]) := rfl
  refine ⟨hbuild, by norm_num,
    C9_axial_roundtrip [s9a, s9b] _ 1 hbuild (by norm_num), ?_⟩
  norm_num [calibrateSlice, apply_modality_lut, s9a]
